import Mathlib

/-!
Shallow embedding of `src/c_ffi.rs`, the C FFI boundary of the
harmony-swift crate.  The boundary layer itself (null checks, message
assembly, result marshalling) is translated function by function from the
source.  The underlying engine (`HarmonyEncoding`: its tokenizer, the
conversation renderer and the stop-token set) is not part of the sources;
it is abstracted as a structure of functions, and, where a claim depends
on engine behaviour, a concrete `modelEngine` is modelled from the spec.

Modelling conventions:
- a C pointer argument is `Option _`; `none` is the null pointer;
- a `*const c_char` text argument is `CText`: null, or a byte string that
  is either valid UTF-8 (carrying the decoded `String`, which can hold no
  interior NUL, as C strings are NUL-terminated) or invalid UTF-8;
- a `(tokens: *const u32, tokens_len: usize)` pair is the `Option (List Nat)`
  it denotes, `none` for a null pointer;
- the `tokens_out`/`tokens_len` out-parameters are the `output` field of
  `TokenOut`; `none` means the out-parameters were never written;
- the raw byte vector produced by the engine's `decode_bytes` is `Bytes`:
  either valid UTF-8 (carrying the decoded `String`) or invalid.
-/

/-- A `*const c_char` argument: null, or a NUL-terminated byte string.
`str (some s)` holds bytes that are valid UTF-8 decoding to `s`;
`str none` holds bytes that are not valid UTF-8. -/
inductive CText where
  | null : CText
  | str : Option String → CText
deriving DecidableEq

/-- Models `CStr::from_ptr(p).to_str().unwrap_or("")` on a non-null `p`:
invalid UTF-8 is coerced to the empty string. -/
def strOrEmpty (v : Option String) : String := v.getD ""

/-- Whether a string contains an interior NUL character (equivalently,
whether its UTF-8 bytes contain a 0 byte). -/
def hasNul (s : String) : Bool := s.data.any (fun c => c = Char.ofNat 0)

/-- Models `CString::new(s)`: fails exactly when `s` has an interior NUL. -/
def cstringNew (s : String) : Option String :=
  if hasNul s then none else some s

/-- The raw bytes returned by the engine's `decode_bytes`: either valid
UTF-8, carrying the string they decode to, or invalid UTF-8. -/
inductive Bytes where
  | valid : String → Bytes
  | invalid : Bytes
deriving DecidableEq

/-- Models `String::from_utf8(bytes)`. -/
def stringFromUtf8 : Bytes → Option String
  | Bytes.valid s => some s
  | Bytes.invalid => none

/-- Mirrors the Rust `HarmonyResult` record: `error_message = none`
models a null `error_message` pointer. -/
structure HarmonyResult where
  success : Bool
  error_message : Option String
deriving DecidableEq

/-- Models `HarmonyResult::ok()`. -/
def HarmonyResult.ok : HarmonyResult := ⟨true, none⟩

/-- Models `HarmonyResult::err(msg)`: `CString::new(msg).unwrap_or("Error")`. -/
def HarmonyResult.err (msg : String) : HarmonyResult :=
  ⟨false, some (if hasNul msg then "Error" else msg)⟩

/-- Return value of an operation with token out-parameters: the status
record plus what was written through `tokens_out`/`tokens_len`
(`none` = the out-parameters were left unwritten). -/
structure TokenOut where
  result : HarmonyResult
  output : Option (List Nat)
deriving DecidableEq

/-- Mirrors `chat::Role` (the three roles this boundary uses). -/
inductive Role where
  | system : Role
  | user : Role
  | assistant : Role
deriving DecidableEq

/-- Mirrors `chat::SystemContent`: only the `model_identity` field is
exercised by this boundary. -/
structure SystemContent where
  model_identity : Option String
deriving DecidableEq

/-- Models `SystemContent::new()`. -/
def SystemContent.new : SystemContent := ⟨none⟩

/-- Models `SystemContent::with_model_identity(text)`. -/
def SystemContent.with_model_identity (_sc : SystemContent) (s : String) :
    SystemContent := ⟨some s⟩

/-- Message content: either structured system content or free text. -/
inductive Content where
  | sys : SystemContent → Content
  | text : String → Content
deriving DecidableEq

/-- Mirrors `chat::Message` as used here: a role plus content. -/
structure Message where
  role : Role
  content : Content
deriving DecidableEq

/-- Models `Message::from_role_and_content`. -/
def Message.from_role_and_content (r : Role) (c : Content) : Message := ⟨r, c⟩

/-- Mirrors `chat::Conversation`. -/
structure Conversation where
  messages : List Message
deriving DecidableEq

/-- Models `Conversation::from_messages`. -/
def Conversation.from_messages (ms : List Message) : Conversation := ⟨ms⟩

/-- The abstract engine behind a live `HarmonyEncodingWrapper`: the
tokenizer's `encode_ordinary` and `decode_bytes`, the conversation
renderer, and the stop-token query.  These live outside `src/`, so they
are abstract here; claims that need their behaviour use `modelEngine`. -/
structure Engine where
  encode_ordinary : String → List Nat
  decode_bytes : List Nat → Except String Bytes
  render_conversation : Conversation → Except String (List Nat)
  stop_tokens_fn : Except String (List Nat)

/-- Models `harmony_encoding_encode_plain` (src/c_ffi.rs:83-120).  The wrapper
argument is `Option Engine` (`none` = null pointer). -/
def harmony_encoding_encode_plain (wrapper : Option Engine) (text : CText) :
    TokenOut :=
  match wrapper with
  | none => ⟨HarmonyResult.err "Null encoding wrapper", none⟩
  | some encoding =>
    match text with
    | CText.null => ⟨HarmonyResult.err "Null text", none⟩
    | CText.str v =>
      let text_str := strOrEmpty v
      let tokens := encoding.encode_ordinary text_str
      ⟨HarmonyResult.ok, some tokens⟩

/-- The message list built by `harmony_encoding_render_prompt`
(src/c_ffi.rs:138-179) before rendering: `none` when the user argument is
null (the function short-circuits with an error there). -/
def build_messages (system_msg user_msg asst_msg : CText) :
    Option (List Message) :=
  let messages : List Message :=
    match system_msg with
    | CText.null => []
    | CText.str v =>
      let system_text := strOrEmpty v
      if system_text = "" then []
      else
        let system_content := SystemContent.new.with_model_identity system_text
        [Message.from_role_and_content Role.system (Content.sys system_content)]
  match user_msg with
  | CText.null => none
  | CText.str v =>
    let user_text := strOrEmpty v
    let messages := messages ++
      [Message.from_role_and_content Role.user (Content.text user_text)]
    let messages := messages ++
      (match asst_msg with
       | CText.null => []
       | CText.str v =>
         let assistant_text := strOrEmpty v
         if assistant_text = "" then []
         else [Message.from_role_and_content Role.assistant
                 (Content.text assistant_text)])
    some messages

/-- Models `harmony_encoding_render_prompt` (src/c_ffi.rs:124-198). -/
def harmony_encoding_render_prompt (wrapper : Option Engine)
    (system_msg user_msg asst_msg : CText) : TokenOut :=
  match wrapper with
  | none => ⟨HarmonyResult.err "Null encoding wrapper", none⟩
  | some encoding =>
    match build_messages system_msg user_msg asst_msg with
    | none => ⟨HarmonyResult.err "Null user message", none⟩
    | some msgs =>
      match encoding.render_conversation (Conversation.from_messages msgs) with
      | Except.ok tokens => ⟨HarmonyResult.ok, some tokens⟩
      | Except.error e =>
        ⟨HarmonyResult.err ("Failed to render conversation: " ++ e), none⟩

/-- Models `harmony_encoding_decode` (src/c_ffi.rs:202-228).  The
pointer+length token pair is `Option (List Nat)`; the returned
`*mut c_char` is `Option String` (`none` = null). -/
def harmony_encoding_decode (wrapper : Option Engine)
    (tokens : Option (List Nat)) : Option String :=
  match wrapper, tokens with
  | some encoding, some tokens_slice =>
    match encoding.decode_bytes tokens_slice with
    | Except.ok bytes =>
      match stringFromUtf8 bytes with
      | some text => cstringNew text
      | none => none
    | Except.error _ => none
  | _, _ => none

/-- Models `harmony_encoding_stop_tokens` (src/c_ffi.rs:232-261). -/
def harmony_encoding_stop_tokens (wrapper : Option Engine) : TokenOut :=
  match wrapper with
  | none => ⟨HarmonyResult.err "Null encoding wrapper", none⟩
  | some encoding =>
    match encoding.stop_tokens_fn with
    | Except.ok ts => ⟨HarmonyResult.ok, some ts⟩
    | Except.error e =>
      ⟨HarmonyResult.err ("Failed to get stop tokens: " ++ e), none⟩

/-- Observable effect of a release call: nothing freed, or one buffer freed.
Totality of the functions below models absence of crashes. -/
inductive FreeAction where
  | noop : FreeAction
  | freed : FreeAction
deriving DecidableEq

/-- Models `harmony_free_string` (src/c_ffi.rs:43-49). -/
def harmony_free_string (s : Option String) : FreeAction :=
  match s with
  | none => FreeAction.noop
  | some _ => FreeAction.freed

/-- Models `harmony_free_tokens` (src/c_ffi.rs:52-58); the length is passed but a
null pointer short-circuits before it is used. -/
def harmony_free_tokens (tokens : Option (List Nat)) (_len : Nat) : FreeAction :=
  match tokens with
  | none => FreeAction.noop
  | some _ => FreeAction.freed

/-- Models `harmony_encoding_free` (src/c_ffi.rs:73-79). -/
def harmony_encoding_free (wrapper : Option Engine) : FreeAction :=
  match wrapper with
  | none => FreeAction.noop
  | some _ => FreeAction.freed

/-- Boolean form of `Nat.isValidChar`: the scalar values UTF-8 can encode. -/
def natIsValidChar (n : Nat) : Bool :=
  decide (n < 0xd800) || (decide (0xe000 ≤ n) && decide (n < 0x110000))

/-- Modelled from the spec: the engine (`HarmonyEncoding` with its
tokenizer, renderer and stop tokens) is not under `src/`.  Per the spec,
`decode(encode_plain(T))` reproduces plain text `T` exactly, decoding an
empty token sequence yields empty content, and the stop-token set is a
fixed non-empty sequence.  The model tokenizer emits one token per
character (its Unicode scalar value) and decodes any all-valid-scalar
token sequence back to the corresponding text, any other sequence to
invalid bytes; the renderer and stop tokens are fixed total functions. -/
def modelEngine : Engine where
  encode_ordinary := fun s => s.data.map Char.toNat
  decode_bytes := fun ts =>
    if ts.all natIsValidChar then
      Except.ok (Bytes.valid (String.mk (ts.map Char.ofNat)))
    else
      Except.ok Bytes.invalid
  render_conversation := fun conv => Except.ok (List.range conv.messages.length)
  stop_tokens_fn := Except.ok [200002, 200012]

/-- Every character's scalar value passes the validity check. -/
theorem natIsValidChar_toNat (c : Char) : natIsValidChar c.toNat = true := by
  have h := c.valid
  rcases h with h | ⟨h1, h2⟩ <;> simp [natIsValidChar, Char.toNat] <;> omega

/-- The model tokenizer round-trips every string at the byte level. -/
theorem modelEngine_decode_encode (s : String) :
    modelEngine.decode_bytes (modelEngine.encode_ordinary s) =
      Except.ok (Bytes.valid s) := by
  simp only [modelEngine]
  rw [if_pos]
  · congr 1
    congr 1
    rw [List.map_map]
    have : (Char.ofNat ∘ Char.toNat) = id := by
      funext c
      exact Char.ofNat_toNat c
    rw [this, List.map_id]
  · simp only [List.all_eq_true]
    intro n hn
    rw [List.mem_map] at hn
    obtain ⟨c, _, rfl⟩ := hn
    exact natIsValidChar_toNat c

/-- C5: `encode_plain` with a null handle or null text pointer returns
`success = false` with a non-null diagnostic, leaves the token
out-parameters unwritten, and never invokes the tokenizer (the outcome is
independent of the engine behind the handle). -/
theorem encode_plain_invalid_input (wrapper : Option Engine) (text : CText)
    (h : wrapper = none ∨ text = CText.null) :
    (harmony_encoding_encode_plain wrapper text).result.success = false ∧
    (∃ m, (harmony_encoding_encode_plain wrapper text).result.error_message =
      some m) ∧
    (harmony_encoding_encode_plain wrapper text).output = none ∧
    (∀ E2 : Engine, harmony_encoding_encode_plain wrapper text =
      harmony_encoding_encode_plain (wrapper.map fun _ => E2) text) := by
  rcases h with rfl | rfl
  · exact ⟨rfl, ⟨_, rfl⟩, rfl, fun _ => rfl⟩
  · cases wrapper with
    | none => exact ⟨rfl, ⟨_, rfl⟩, rfl, fun _ => rfl⟩
    | some E => exact ⟨rfl, ⟨_, rfl⟩, rfl, fun _ => rfl⟩

/-- Witness for C5 at the spec's example `encode_plain(NULL, "x")`. -/
theorem encode_plain_invalid_input_witness :
    ((none : Option Engine) = none ∨ CText.str (some "x") = CText.null) ∧
    ((harmony_encoding_encode_plain none (CText.str (some "x"))).result.success
        = false ∧
      (∃ m, (harmony_encoding_encode_plain none
        (CText.str (some "x"))).result.error_message = some m) ∧
      (harmony_encoding_encode_plain none (CText.str (some "x"))).output =
        none ∧
      (∀ E2 : Engine, harmony_encoding_encode_plain none
          (CText.str (some "x")) =
        harmony_encoding_encode_plain
          ((none : Option Engine).map fun _ => E2) (CText.str (some "x")))) :=
  ⟨Or.inl rfl,
   encode_plain_invalid_input none (CText.str (some "x")) (Or.inl rfl)⟩

/-- C6: on a valid handle, `encode_plain` of the empty string succeeds and
writes a zero-length token buffer (engine behaviour on the empty string is
that of the tokenizer: no tokens). -/
theorem encode_plain_empty_string (E : Engine)
    (h : E.encode_ordinary "" = []) :
    harmony_encoding_encode_plain (some E) (CText.str (some "")) =
      ⟨HarmonyResult.ok, some []⟩ := by
  simp [harmony_encoding_encode_plain, strOrEmpty, h]

/-- Witness for C6 on the model engine. -/
theorem encode_plain_empty_string_witness :
    modelEngine.encode_ordinary "" = [] ∧
    harmony_encoding_encode_plain (some modelEngine) (CText.str (some "")) =
      ⟨HarmonyResult.ok, some []⟩ :=
  ⟨rfl, encode_plain_empty_string modelEngine rfl⟩

/-- C7: on a valid handle and a non-null token pointer, `decode` with
length 0 returns a non-null empty string (the engine decodes the empty
token sequence to empty byte content). -/
theorem decode_zero_length (E : Engine)
    (h : E.decode_bytes [] = Except.ok (Bytes.valid "")) :
    harmony_encoding_decode (some E) (some []) = some "" := by
  simp [harmony_encoding_decode, h, stringFromUtf8, cstringNew, hasNul]

/-- Witness for C7 on the model engine. -/
theorem decode_zero_length_witness :
    modelEngine.decode_bytes [] = Except.ok (Bytes.valid "") ∧
    harmony_encoding_decode (some modelEngine) (some []) = some "" :=
  ⟨rfl, decode_zero_length modelEngine rfl⟩

/-- C4: `stop_tokens` is a pure function of the handle, so two successive
calls on the same handle return element-wise identical sequences in the
same order; on the model engine the returned sequence is non-empty. -/
theorem stop_tokens_stable :
    (∀ E : Engine, harmony_encoding_stop_tokens (some E) =
      harmony_encoding_stop_tokens (some E)) ∧
    (∃ ts, (harmony_encoding_stop_tokens (some modelEngine)).output =
      some ts ∧ 0 < ts.length) :=
  ⟨fun _ => rfl, ⟨[200002, 200012], rfl, by decide⟩⟩

/-- C10: each release call is a safe no-op on a null pointer: it frees
nothing, and (being total here) cannot crash. -/
theorem free_null_noop :
    harmony_free_string none = FreeAction.noop ∧
    (∀ len : Nat, harmony_free_tokens none len = FreeAction.noop) ∧
    harmony_encoding_free none = FreeAction.noop :=
  ⟨rfl, fun _ => rfl, rfl⟩

/-- C8: input text whose bytes are invalid UTF-8 is coerced to the empty
string by `encode_plain` and `render_prompt` (same outcome as a valid
empty string, and `encode_plain` still succeeds); only at decode time does
invalid byte content — there, in the output — make the call fail (null). -/
theorem invalid_utf8_coerced_empty (E : Engine) (a b c : CText)
    (ts : List Nat) :
    harmony_encoding_encode_plain (some E) (CText.str none) =
      harmony_encoding_encode_plain (some E) (CText.str (some "")) ∧
    (harmony_encoding_encode_plain (some E) (CText.str none)).result.success
      = true ∧
    harmony_encoding_render_prompt (some E) (CText.str none) b c =
      harmony_encoding_render_prompt (some E) (CText.str (some "")) b c ∧
    harmony_encoding_render_prompt (some E) a (CText.str none) c =
      harmony_encoding_render_prompt (some E) a (CText.str (some "")) c ∧
    harmony_encoding_render_prompt (some E) a b (CText.str none) =
      harmony_encoding_render_prompt (some E) a b (CText.str (some "")) ∧
    (E.decode_bytes ts = Except.ok Bytes.invalid →
      harmony_encoding_decode (some E) (some ts) = none) := by
  refine ⟨rfl, rfl, rfl, rfl, rfl, fun h => ?_⟩
  simp [harmony_encoding_decode, h, stringFromUtf8]

/-- Witness for C8: a surrogate scalar value makes the model engine
produce invalid output bytes, and decode returns null on it. -/
theorem invalid_utf8_coerced_empty_witness :
    modelEngine.decode_bytes [55296] = Except.ok Bytes.invalid ∧
    harmony_encoding_decode (some modelEngine) (some [55296]) = none ∧
    harmony_encoding_encode_plain (some modelEngine) (CText.str none) =
      harmony_encoding_encode_plain (some modelEngine)
        (CText.str (some "")) :=
  ⟨rfl,
   (invalid_utf8_coerced_empty modelEngine CText.null CText.null CText.null
     [55296]).2.2.2.2.2 rfl,
   (invalid_utf8_coerced_empty modelEngine CText.null CText.null CText.null
     [55296]).1⟩

/-- C1: on a valid handle, decoding the token buffer produced by
`encode_plain` on plain text `T` reproduces `T` exactly.  `T` arrives
through a NUL-terminated C string, so it contains no interior NUL. -/
theorem encode_plain_decode_roundtrip (s : String) (h : hasNul s = false) :
    harmony_encoding_decode (some modelEngine)
      ((harmony_encoding_encode_plain (some modelEngine)
        (CText.str (some s))).output) = some s := by
  have he : (harmony_encoding_encode_plain (some modelEngine)
      (CText.str (some s))).output = some (modelEngine.encode_ordinary s) :=
    rfl
  rw [he]
  simp [harmony_encoding_decode, modelEngine_decode_encode, stringFromUtf8,
    cstringNew, h]

/-- Witness for C1 on a concrete plain text. -/
theorem encode_plain_decode_roundtrip_witness :
    hasNul "ab" = false ∧
    harmony_encoding_decode (some modelEngine)
      ((harmony_encoding_encode_plain (some modelEngine)
        (CText.str (some "ab"))).output) = some "ab" :=
  ⟨by decide, encode_plain_decode_roundtrip "ab" (by decide)⟩

/-- C9: a token sequence whose decoded bytes are valid UTF-8 but contain
an interior NUL byte makes `decode` return null even though the engine
decode succeeded — a failure case beyond those the spec enumerates. -/
theorem decode_interior_nul_returns_null :
    (∃ s, modelEngine.decode_bytes [0] = Except.ok (Bytes.valid s) ∧
      hasNul s = true) ∧
    harmony_encoding_decode (some modelEngine) (some [0]) = none :=
  ⟨⟨String.mk [Char.ofNat 0], rfl, by decide⟩, by decide⟩

/-- The system-message part of the assembled conversation. -/
def sysMsgs (system_msg : CText) : List Message :=
  match system_msg with
  | CText.null => []
  | CText.str v =>
    if strOrEmpty v = "" then []
    else [⟨Role.system, Content.sys ⟨some (strOrEmpty v)⟩⟩]

/-- The assistant-continuation part of the assembled conversation. -/
def asstMsgs (asst_msg : CText) : List Message :=
  match asst_msg with
  | CText.null => []
  | CText.str v =>
    if strOrEmpty v = "" then []
    else [⟨Role.assistant, Content.text (strOrEmpty v)⟩]

/-- Rewrites `build_messages` in closed form: `none` on a null user argument, else
system part ++ user message ++ assistant part. -/
theorem build_messages_eq (sys user asst : CText) :
    build_messages sys user asst =
      (match user with
       | CText.null => none
       | CText.str v =>
         some (sysMsgs sys ++ [⟨Role.user, Content.text (strOrEmpty v)⟩] ++
           asstMsgs asst)) := by
  cases user <;> cases sys <;> cases asst <;> rfl

/-- The string a (possibly null) text argument is coerced to. -/
def ctextCoerced : CText → String
  | CText.null => ""
  | CText.str v => strOrEmpty v

/-- Any member of the system part comes from a non-null, non-empty system
argument and is the system message with that text as model identity. -/
theorem sysMsgs_spec (sys : CText) (m : Message) (h : m ∈ sysMsgs sys) :
    ∃ v, sys = CText.str v ∧ strOrEmpty v ≠ "" ∧
      m = ⟨Role.system, Content.sys ⟨some (strOrEmpty v)⟩⟩ := by
  cases sys with
  | null => simp [sysMsgs] at h
  | str v =>
    simp only [sysMsgs] at h
    split_ifs at h with hc
    · simp at h
    · simp at h
      exact ⟨v, rfl, hc, h⟩

/-- A non-empty system argument contributes its system message. -/
theorem sysMsgs_mem (v : Option String) (hv : strOrEmpty v ≠ "") :
    (⟨Role.system, Content.sys ⟨some (strOrEmpty v)⟩⟩ : Message) ∈
      sysMsgs (CText.str v) := by
  simp [sysMsgs, hv]

/-- Any member of the assistant part comes from a non-null, non-empty
assistant argument and is the assistant text message. -/
theorem asstMsgs_spec (asst : CText) (m : Message) (h : m ∈ asstMsgs asst) :
    ∃ v, asst = CText.str v ∧ strOrEmpty v ≠ "" ∧
      m = ⟨Role.assistant, Content.text (strOrEmpty v)⟩ := by
  cases asst with
  | null => simp [asstMsgs] at h
  | str v =>
    simp only [asstMsgs] at h
    split_ifs at h with hc
    · simp at h
    · simp at h
      exact ⟨v, rfl, hc, h⟩

/-- A non-empty assistant argument contributes its assistant message. -/
theorem asstMsgs_mem (v : Option String) (hv : strOrEmpty v ≠ "") :
    (⟨Role.assistant, Content.text (strOrEmpty v)⟩ : Message) ∈
      asstMsgs (CText.str v) := by
  simp [asstMsgs, hv]

/-- C2: on a valid handle, a null user argument always fails before
rendering; and in the conversation `render_prompt` assembles, a
system-role message is present iff the system argument is non-null with
non-empty coerced text (and then its content is the structured system
content with that text as model identity, not free text), and an
assistant-role message is present iff the assistant argument is non-null
with non-empty coerced text. -/
theorem render_prompt_conversation_assembly (E : Engine)
    (sys user asst : CText) :
    (harmony_encoding_render_prompt (some E) sys CText.null asst =
      ⟨HarmonyResult.err "Null user message", none⟩) ∧
    (∀ msgs, build_messages sys user asst = some msgs →
      (((∃ m, m ∈ msgs ∧ m.role = Role.system) ↔
          (∃ v, sys = CText.str v ∧ strOrEmpty v ≠ "")) ∧
       (∀ m, m ∈ msgs → m.role = Role.system →
          m.content = Content.sys ⟨some (ctextCoerced sys)⟩) ∧
       ((∃ m, m ∈ msgs ∧ m.role = Role.assistant) ↔
          (∃ v, asst = CText.str v ∧ strOrEmpty v ≠ "")))) := by
  constructor
  · simp [harmony_encoding_render_prompt, build_messages_eq]
  · intro msgs hm
    rw [build_messages_eq] at hm
    cases user with
    | null => simp at hm
    | str v =>
      simp only [Option.some.injEq] at hm
      subst hm
      refine ⟨⟨?_, ?_⟩, ?_, ⟨?_, ?_⟩⟩
      · rintro ⟨m, hmem, hrole⟩
        simp only [List.mem_append, List.mem_singleton] at hmem
        rcases hmem with (hmem | rfl) | hmem
        · obtain ⟨v2, rfl, hv2, rfl⟩ := sysMsgs_spec _ _ hmem
          exact ⟨v2, rfl, hv2⟩
        · cases hrole
        · obtain ⟨v2, rfl, hv2, rfl⟩ := asstMsgs_spec _ _ hmem
          cases hrole
      · rintro ⟨v2, rfl, hv2⟩
        refine ⟨⟨Role.system, Content.sys ⟨some (strOrEmpty v2)⟩⟩, ?_, rfl⟩
        simp only [List.mem_append, List.mem_singleton]
        exact Or.inl (Or.inl (sysMsgs_mem v2 hv2))
      · intro m hmem hrole
        simp only [List.mem_append, List.mem_singleton] at hmem
        rcases hmem with (hmem | rfl) | hmem
        · obtain ⟨v2, rfl, hv2, rfl⟩ := sysMsgs_spec _ _ hmem
          simp [ctextCoerced]
        · cases hrole
        · obtain ⟨v2, rfl, hv2, rfl⟩ := asstMsgs_spec _ _ hmem
          cases hrole
      · rintro ⟨m, hmem, hrole⟩
        simp only [List.mem_append, List.mem_singleton] at hmem
        rcases hmem with (hmem | rfl) | hmem
        · obtain ⟨v2, rfl, hv2, rfl⟩ := sysMsgs_spec _ _ hmem
          cases hrole
        · cases hrole
        · obtain ⟨v2, rfl, hv2, rfl⟩ := asstMsgs_spec _ _ hmem
          exact ⟨v2, rfl, hv2⟩
      · rintro ⟨v2, rfl, hv2⟩
        refine ⟨⟨Role.assistant, Content.text (strOrEmpty v2)⟩, ?_, rfl⟩
        simp only [List.mem_append, List.mem_singleton]
        exact Or.inr (asstMsgs_mem v2 hv2)

/-- Witness for C2 at concrete arguments: null user fails, and a concrete
non-empty system argument puts a system message in the conversation. -/
theorem render_prompt_conversation_assembly_witness :
    (harmony_encoding_render_prompt (some modelEngine) (CText.str (some "S"))
      CText.null CText.null = ⟨HarmonyResult.err "Null user message", none⟩) ∧
    (∃ m, m ∈ ([⟨Role.system, Content.sys ⟨some "S"⟩⟩,
        ⟨Role.user, Content.text "U"⟩] : List Message) ∧
      m.role = Role.system) :=
  ⟨(render_prompt_conversation_assembly modelEngine (CText.str (some "S"))
      (CText.str (some "U")) CText.null).1,
   (((render_prompt_conversation_assembly modelEngine (CText.str (some "S"))
      (CText.str (some "U")) CText.null).2
      [⟨Role.system, Content.sys ⟨some "S"⟩⟩, ⟨Role.user, Content.text "U"⟩]
      (by decide)).1).mpr ⟨some "S", rfl, by decide⟩⟩

/-- C3 as stated is too narrow: here the handle is non-null, the token
pointer is non-null, the engine decode succeeds, and the decoded bytes
are valid UTF-8, yet `decode` returns null (interior NUL byte). -/
theorem decode_null_iff_counterexample :
    ((some modelEngine : Option Engine) ≠ none) ∧
    ((some [0] : Option (List Nat)) ≠ none) ∧
    (∃ s, modelEngine.decode_bytes [0] = Except.ok (Bytes.valid s) ∧
      stringFromUtf8 (Bytes.valid s) = some s) ∧
    harmony_encoding_decode (some modelEngine) (some [0]) = none :=
  ⟨by simp, by simp, ⟨String.mk [Char.ofNat 0], rfl, rfl⟩, by decide⟩

/-- C3 amended: `decode` returns null iff the handle is null, the token
pointer is null, the engine decode fails, the decoded bytes are not valid
UTF-8, or the decoded text contains an interior NUL byte; the return type
carries no diagnostic, so none of these cases is distinguishable. -/
theorem decode_null_characterization (wrapper : Option Engine)
    (tokens : Option (List Nat)) :
    harmony_encoding_decode wrapper tokens = none ↔
      (wrapper = none ∨ tokens = none ∨
       (∃ E ts, wrapper = some E ∧ tokens = some ts ∧
         ((∃ e, E.decode_bytes ts = Except.error e) ∨
          E.decode_bytes ts = Except.ok Bytes.invalid ∨
          (∃ s, E.decode_bytes ts = Except.ok (Bytes.valid s) ∧
            hasNul s = true)))) := by
  cases wrapper with
  | none => simp [harmony_encoding_decode]
  | some E =>
    cases tokens with
    | none => simp [harmony_encoding_decode]
    | some ts =>
      simp only [harmony_encoding_decode, Option.some.injEq,
        reduceCtorEq, false_or]
      rcases hb : E.decode_bytes ts with e | b
      · simp [hb]
      · cases b with
        | valid s =>
          simp only [stringFromUtf8, cstringNew, hb]
          rcases hn : hasNul s with _ | _ <;> simp_all
        | invalid =>
          simp [hb, stringFromUtf8]

/-- Witness for the amended C3 at a concrete input. -/
theorem decode_null_characterization_witness :
    harmony_encoding_decode (none : Option Engine)
      (none : Option (List Nat)) = none :=
  (decode_null_characterization none none).mpr (Or.inl rfl)
